import Mathlib

/-!
Verification of the YouTube downloader core (youtube_downloader package).

Shallow embedding notes:
* Python strings are modelled as Lean `String` / `List Char`.
* Python `float` values for percentages are modelled as `ℚ`; the percent
  strings fed by the engine are plain decimal literals, for which the
  rational model is exact.
* In-place mutation of a `DownloadTask`'s `progress` is modelled by
  functional update of the task inside the list that holds it.
* Exceptions are modelled by an `Option String` error component
  (`some msg` = the Python call raised) or by `Except String`.
-/

namespace YTD

/-! ## utils.py -/

/-- The invalid filename characters of `utils.sanitize`: `<>:"/\|?*`. -/
def invalidChar (c : Char) : Bool :=
  c = '<' || c = '>' || c = ':' || c = '"' || c = '/' || c = '\\' ||
  c = '|' || c = '?' || c = '*'

/-- The per-character replacement performed by the `filename.replace(char, "_")`
loop of `utils.sanitize` (each invalid character becomes an underscore). -/
def replaceInvalid (l : List Char) : List Char :=
  l.map (fun c => if invalidChar c then '_' else c)

/-- `utils.sanitize` on the character list of the filename: replace every
invalid character by an underscore, then if the result is longer than 200
characters keep the first 197 and append "...". -/
def sanitize (l : List Char) : List Char :=
  if (replaceInvalid l).length > 200 then
    (replaceInvalid l).take 197 ++ ['.', '.', '.']
  else replaceInvalid l

/-- Single escape characters matched by the first regex branch of
`utils.ANSI_ESCAPE`: the class covers `@`..`Z` and `\`..`_`. -/
def ansiSingle (c : Char) : Bool :=
  (0x40 ≤ c.toNat && c.toNat ≤ 0x5A) || (0x5C ≤ c.toNat && c.toNat ≤ 0x5F)

/-- CSI parameter bytes (codes 0x30 to 0x3F) of the regex tail. -/
def csiParam (c : Char) : Bool := 0x30 ≤ c.toNat && c.toNat ≤ 0x3F

/-- CSI intermediate bytes (codes 0x20 to 0x2F) of the regex tail. -/
def csiInter (c : Char) : Bool := 0x20 ≤ c.toNat && c.toNat ≤ 0x2F

/-- CSI final bytes (codes 0x40 to 0x7E) of the regex tail. -/
def csiFinal (c : Char) : Bool := 0x40 ≤ c.toNat && c.toNat ≤ 0x7E

/-- Try to match the CSI tail of `utils.ANSI_ESCAPE` (parameter bytes, then
intermediate bytes, then one final byte — the part after `ESC [`); on
success return the remaining input after the match. -/
def tryCSI (l : List Char) : Option (List Char) :=
  match (l.dropWhile csiParam).dropWhile csiInter with
  | f :: rest => if csiFinal f then some rest else none
  | [] => none

/-- The scanner of `utils.clean_ansi`, structurally recursive on a fuel
argument (every recursive call consumes at least one input character and
one unit of fuel, so fuel equal to the input length never runs out): delete
every match of `utils.ANSI_ESCAPE` (ESC followed either by one character of
the single-escape class, or by a bracketed CSI tail), scanning left to
right as `re.sub` does; on a failed match at an ESC, the ESC character is
kept and scanning resumes at the next character. -/
def cleanAnsiAux : Nat → List Char → List Char
  | 0, l => l
  | _ + 1, [] => []
  | fuel + 1, c :: rest =>
    if c = '\x1B' then
      match rest with
      | [] => [c]
      | d :: rest2 =>
        if ansiSingle d then cleanAnsiAux fuel rest2
        else if d = '[' then
          match tryCSI rest2 with
          | some r => cleanAnsiAux fuel r
          | none => c :: cleanAnsiAux fuel rest
        else c :: cleanAnsiAux fuel rest
    else c :: cleanAnsiAux fuel rest

/-- `utils.clean_ansi`: remove every ANSI escape sequence. -/
def clean_ansi (l : List Char) : List Char := cleanAnsiAux l.length l

/-- Whitespace characters removed by Python `str.strip()` (ASCII subset;
the percent strings handled by the hook contain only ASCII whitespace). -/
def pySpace (c : Char) : Bool :=
  c = ' ' || c = '\t' || c = '\n' || c = '\x0d' || c = '\x0b' || c = '\x0c'

/-- Python `str.strip()`: drop whitespace from both ends. -/
def pyStrip (l : List Char) : List Char :=
  ((l.dropWhile pySpace).reverse.dropWhile pySpace).reverse

/-- Python `str.replace("%", "")`: remove every percent sign. -/
def removePct (l : List Char) : List Char := l.filter (fun c => c ≠ '%')

/-- Value of a list of decimal digit characters. -/
def digitsVal (ds : List Char) : Nat :=
  ds.foldl (fun a c => 10 * a + (c.toNat - 48)) 0

def isDigit (c : Char) : Bool := '0' ≤ c && c ≤ '9'

/-- Magnitude part of a Python float literal: digits with an optional
fractional part (at least one digit overall). -/
def pyFloatUnsigned (l : List Char) : Option ℚ :=
  match l.dropWhile isDigit with
  | [] =>
    if (l.takeWhile isDigit).isEmpty then none
    else some (digitsVal (l.takeWhile isDigit) : ℚ)
  | '.' :: r2 =>
    if (r2.dropWhile isDigit).isEmpty &&
        !((l.takeWhile isDigit).isEmpty && (r2.takeWhile isDigit).isEmpty) then
      some ((digitsVal (l.takeWhile isDigit) : ℚ) +
        (digitsVal (r2.takeWhile isDigit) : ℚ) / 10 ^ (r2.takeWhile isDigit).length)
    else none
  | _ => none

/-- Modelled from the builtin: Python `float(s)` on the plain decimal
literals produced by the progress hook's cleaning step — optional sign,
then digits with an optional fractional part (at least one digit overall).
Returns `none` exactly when `float` would raise `ValueError` on such
input; exponent and inf/nan forms never occur in percent strings and are
modelled as unparsable. The value is exact as a rational. -/
def pyFloat (l : List Char) : Option ℚ :=
  match l with
  | '+' :: r => pyFloatUnsigned r
  | '-' :: r => (pyFloatUnsigned r).map (fun q => -q)
  | _ => pyFloatUnsigned l

/-- `os.path.basename` (posix): the part of the path after the last slash. -/
def basename (s : String) : String :=
  ⟨((s.data.reverse.takeWhile (fun c => c ≠ '/')).reverse)⟩

/-! ## models.py -/

/-- `models.DownloadProgress` (the fields the core logic reads or writes).
`percent` is a Python float, modelled as `ℚ`. -/
structure DownloadProgress where
  filename : String := ""
  percent : ℚ := 0
  speed : String := ""
  eta : String := ""
  status : String := "waiting"
  error_message : String := ""
  bytes_downloaded : Int := 0
  total_bytes : Int := 0
  deriving Repr, DecidableEq

/-- The slice of `models.DownloadOptions` the orchestration logic reads. -/
structure DownloadOptions where
  format_selector : String := "best"
  output_template : String := "%(title)s.%(ext)s"
  download_dir : String := "downloads"
  max_workers : Nat := 1
  sleep_interval : Nat := 3
  deriving Repr, DecidableEq

/-- `models.DownloadTask` (the fields the core logic reads or writes). -/
structure DownloadTask where
  url : String
  options : DownloadOptions := {}
  index : Nat := 0
  total : Nat := 0
  progress : DownloadProgress := {}
  is_playlist : Bool := false
  deriving Repr, DecidableEq

/-! ## downloader.py: progress_hook -/

/-- A yt-dlp progress-hook event dictionary (the keys `progress_hook`
reads). `none` models an absent key; `info_dict` sub-keys are inlined. -/
structure HookEvent where
  filename : String := ""
  status : String := ""
  percent_str : Option String := none
  speed_str : Option String := none
  eta_str : Option String := none
  downloaded_bytes : Option Int := none
  total_bytes : Option Int := none
  original_url : Option String := none
  webpage_url : Option String := none
  url : Option String := none
  error : Option String := none
  deriving Repr, DecidableEq

/-- Python truthiness of an optional string: present and non-empty. -/
def truthy : Option String → Bool
  | some s => s ≠ ""
  | none => false

/-- The `candidate_url` computed by `progress_hook`:
`info_dict.get("original_url") or info_dict.get("webpage_url") or
info_dict.get("url")`, normalised so that a falsy result is `none`. -/
def candidateUrl (ev : HookEvent) : Option String :=
  if truthy ev.original_url then ev.original_url
  else if truthy ev.webpage_url then ev.webpage_url
  else if truthy ev.url then ev.url
  else none

/-- First index in the list satisfying the predicate (the Python
`for candidate in self.active_tasks` loops return the first match). -/
def findFirstIdx (p : DownloadTask → Bool) : List DownloadTask → Option Nat
  | [] => none
  | t :: ts => if p t then some 0 else (findFirstIdx p ts).map (· + 1)

/-- Match of the first resolution loop: `candidate.url == candidate_url`. -/
def urlMatches (u : String) (t : DownloadTask) : Bool := t.url = u

/-- Match of the second resolution loop:
`candidate.progress.filename and candidate.progress.filename == basename`. -/
def nameMatches (bn : String) (t : DownloadTask) : Bool :=
  t.progress.filename ≠ "" && t.progress.filename = bn

/-- Match of the third resolution loop: `not candidate.progress.filename`. -/
def freshTask (t : DownloadTask) : Bool := t.progress.filename = ""

/-- `task = task if task is not None else <next lookup>`: keep the already
found index, otherwise fall through to the next resolution loop. -/
def orElseIdx (a b : Option Nat) : Option Nat :=
  match a with
  | some i => some i
  | none => b

/-- The first resolution loop: only runs when the candidate url is truthy
(`if candidate_url:`). -/
def urlTierIdx (active : List DownloadTask) (ev : HookEvent) : Option Nat :=
  match candidateUrl ev with
  | some u => findFirstIdx (urlMatches u) active
  | none => none

/-- The task-resolution logic of `progress_hook`: (1) first active task whose
url equals the truthy candidate url, (2) first active task with a non-empty
recorded filename equal to the event's file basename, (3) first active task
with no recorded filename yet; `none` when no rule matches. Returns the index
of the matched task in the active list. -/
def matchTaskIdx (active : List DownloadTask) (ev : HookEvent) : Option Nat :=
  orElseIdx (urlTierIdx active ev)
    (orElseIdx (findFirstIdx (nameMatches (basename ev.filename)) active)
      (findFirstIdx freshTask active))

/-- The percent-string cleaning of the `downloading` branch:
`clean_ansi(percent_str).replace("%", "").strip()`. -/
def cleanPercentStr (s : String) : List Char :=
  pyStrip (removePct (clean_ansi s.data))

/-- The tail of the `downloading` branch from the `float()` call on: a
parsed percent completes the field updates, a failed parse raises
`ValueError` (filename and status were already mutated). -/
def pctApply (p : DownloadProgress) (ev : HookEvent) :
    Option ℚ → DownloadProgress × Option String
  | some q =>
    ({ p with filename := basename ev.filename, status := "downloading",
              percent := q, speed := ev.speed_str.getD "N/A",
              eta := ev.eta_str.getD "N/A",
              bytes_downloaded := ev.downloaded_bytes.getD 0,
              total_bytes := ev.total_bytes.getD 0 }, none)
  | none =>
    ({ p with filename := basename ev.filename, status := "downloading" },
     some "ValueError: could not convert string to float")

/-- The `downloading` branch:
`percent = float(cleaned) if "_percent_str" in data else 0`. -/
def downloadingUpdate (p : DownloadProgress) (ev : HookEvent) :
    Option String → DownloadProgress × Option String
  | none =>
    ({ p with filename := basename ev.filename, status := "downloading",
              percent := 0, speed := ev.speed_str.getD "N/A",
              eta := ev.eta_str.getD "N/A",
              bytes_downloaded := ev.downloaded_bytes.getD 0,
              total_bytes := ev.total_bytes.getD 0 }, none)
  | some s => pctApply p ev (pyFloat (cleanPercentStr s))

/-- The status dispatch of `progress_hook` on the matched task's progress.
Returns the updated progress and `some msg` when the Python code raises
(`float()` on an unparsable percent string raises `ValueError` after the
filename and status have already been mutated, leaving percent and the
speed/eta/byte fields unchanged). -/
def applyEvent (p : DownloadProgress) (ev : HookEvent) :
    DownloadProgress × Option String :=
  if ev.status = "downloading" then
    downloadingUpdate p ev ev.percent_str
  else if ev.status = "finished" then
    ({ p with filename := basename ev.filename, status := "finished",
              percent := 100 }, none)
  else if ev.status = "error" then
    ({ p with status := "error",
              error_message := ev.error.getD "Lỗi không xác định" }, none)
  else (p, none)

/-- The in-place mutation of the matched task (second argument: the lookup
`active[i]?`, always `some` when the resolution returned an index). -/
def applyToMatched (active : List DownloadTask) (ev : HookEvent) :
    Option DownloadTask → Nat → List DownloadTask × Option String
  | none, _ => (active, none)
  | some t, i =>
    (active.set i { t with progress := (applyEvent t.progress ev).1 },
     (applyEvent t.progress ev).2)

/-- The body of `progress_hook` after task resolution: with no matched task
the event is logged and dropped (`return`), otherwise the matched task's
progress is updated in place. -/
def dispatchMatched (active : List DownloadTask) (ev : HookEvent) :
    Option Nat → List DownloadTask × Option String
  | none => (active, none)
  | some i => applyToMatched active ev active[i]? i

/-- `YouTubeDownloader.progress_hook` over the active-task list: resolve the
owning task, apply the status update in place; when no task matches, the
event is logged and dropped and the list is unchanged. The second component
is `some msg` when the hook raises. -/
def progress_hook (active : List DownloadTask) (ev : HookEvent) :
    List DownloadTask × Option String :=
  dispatchMatched active ev (matchTaskIdx active ev)

/-! ## downloader.py: download_single_video -/

/-- Outcome of one `ydl.download([task.url])` call: `.ok ()` when it
returns, `.error msg` when it raises with `str(exc) = msg`. -/
abbrev EngineResult := Except String Unit

/-- The error-message substring that triggers the one-shot format fallback. -/
def formatNotAvailableMsg : List Char :=
  "requested format is not available".data

/-- Does the needle occur as a contiguous run at the start of the haystack? -/
def beginsWith : List Char → List Char → Bool
  | [], _ => true
  | _ :: _, [] => false
  | a :: as, b :: bs => a = b && beginsWith as bs

/-- Python `needle in haystack` on strings: contiguous substring test. -/
def containsSub (needle : List Char) : List Char → Bool
  | [] => beginsWith needle []
  | b :: bs => beginsWith needle (b :: bs) || containsSub needle bs

/-- `YouTubeDownloader.download_single_video` as a function of the two
possible engine-call outcomes: `r1` is the outcome of the first
`ydl.download` (run with the task's own format selector), `r2` the outcome
of the retry (run with format `"best"`; consulted only when the retry
happens). Returns the boolean result, the task after all in-place progress
mutations, and the list of format selectors actually passed to the engine,
in call order. -/
def download_single_video (t : DownloadTask) (r1 r2 : EngineResult) :
    Bool × DownloadTask × List String :=
  let t0 := { t with progress := { t.progress with status := "downloading" } }
  let fmt := t.options.format_selector
  match r1 with
  | .ok _ =>
    (true, { t0 with progress :=
      { t0.progress with status := "finished", percent := 100 } }, [fmt])
  | .error e1 =>
    if containsSub formatNotAvailableMsg e1.data then
      match r2 with
      | .ok _ =>
        (true, { t0 with progress :=
          { t0.progress with status := "finished", percent := 100 } },
          [fmt, "best"])
      | .error e2 =>
        (false, { t0 with progress :=
          { t0.progress with status := "error", error_message := e2 } },
          [fmt, "best"])
    else
      (false, { t0 with progress :=
        { t0.progress with status := "error", error_message := e1 } }, [fmt])

/-! ## downloader.py: download_playlist and the two execution paths -/

/-- The task list built by `download_playlist` out of the enumerated child
urls: `enumerate(video_urls)` with `index = i + 1` and
`total = len(video_urls)`. `start` is the running enumeration index. -/
def mkTasksAux (opts : DownloadOptions) (total : Nat) :
    Nat → List String → List DownloadTask
  | _, [] => []
  | start, u :: us =>
    { url := u, options := opts, index := start + 1, total := total,
      is_playlist := true } :: mkTasksAux opts total (start + 1) us

/-- The `tasks` list comprehension of `download_playlist`. -/
def mkPlaylistTasks (opts : DownloadOptions) (urls : List String) :
    List DownloadTask :=
  mkTasksAux opts urls.length 0 urls

/-- Per-task engine behaviour: the outcomes of the first call and of the
fallback call for a given task. -/
abbrev Engine := DownloadTask → EngineResult × EngineResult

/-- Did `download_single_video` succeed for this task under this engine? -/
def taskSucceeds (eng : Engine) (t : DownloadTask) : Bool :=
  (download_single_video t (eng t).1 (eng t).2).1

/-- `YouTubeDownloader._download_sequential`: run each task in order,
count the successes, return whether at least one succeeded (the sleep
between tasks does not affect the result). -/
def download_sequential (eng : Engine) (tasks : List DownloadTask) : Bool :=
  (tasks.foldl (fun n t => if taskSucceeds eng t then n + 1 else n) 0) > 0

/-- The batch split of `_download_parallel`:
`tasks[i : i + batch_size]` for `i in range(0, len(tasks), batch_size)`. -/
def toBatches (n : Nat) (l : List DownloadTask) : List (List DownloadTask) :=
  if n = 0 then []
  else match l with
    | [] => []
    | t :: ts => (t :: ts).take n :: toBatches n ((t :: ts).drop n)
termination_by l.length
decreasing_by simp; omega

/-- `YouTubeDownloader._download_parallel`: split into batches of
`min(max_workers, 10)`, run every task of every batch, count all
successes (a raised `future.result()` cannot occur since
`download_single_video` catches its own exceptions), return whether at
least one task succeeded. -/
def download_parallel (eng : Engine) (tasks : List DownloadTask)
    (max_workers : Nat) : Bool :=
  ((toBatches (min max_workers 10) tasks).foldl
    (fun n b => n + b.foldl (fun m t => if taskSucceeds eng t then m + 1 else m) 0)
    0) > 0

/-- `YouTubeDownloader.download_playlist` as a function of the collection
setup: `enum` is the result of `get_playlist_info` plus
`get_all_video_urls_from_playlist` (`.error` when either raises — caught by
the outer handler, which returns `False`). With the urls in hand it builds
the task list and dispatches on `options.max_workers`. -/
def download_playlist (enum : Except String (List String))
    (opts : DownloadOptions) (eng : Engine) : Bool :=
  match enum with
  | .error _ => false
  | .ok urls =>
    if urls.isEmpty then false
    else
      let tasks := mkPlaylistTasks opts urls
      if opts.max_workers > 1 then download_parallel eng tasks opts.max_workers
      else download_sequential eng tasks

/-! ## downloader.py: downloader state (active / completed / failed) -/

/-- The three task lists owned by `YouTubeDownloader`. -/
structure DownloaderState where
  active : List DownloadTask := []
  completed : List DownloadTask := []
  failed : List DownloadTask := []
  deriving Repr, DecidableEq

/-- `progress_hook` at the level of the whole downloader state: only the
active list is consulted and rewritten. -/
def progress_hook_state (st : DownloaderState) (ev : HookEvent) :
    DownloaderState × Option String :=
  ({ st with active := (progress_hook st.active ev).1 },
   (progress_hook st.active ev).2)

/-- The finalization at the end of `download_single_video`:
`_finalize_success` / `_finalize_failure` remove the task object from the
active list and append it to completed or failed (removal by object
identity is modelled as removal by position; first argument: the lookup
`active[i]?`). -/
def finalizeRun (st : DownloaderState) (i : Nat) (r1 r2 : EngineResult) :
    Option DownloadTask → DownloaderState × Bool
  | none => (st, false)
  | some t =>
    if (download_single_video t r1 r2).1 then
      ({ st with active := st.active.eraseIdx i,
                 completed :=
                   st.completed ++ [(download_single_video t r1 r2).2.1] },
        true)
    else
      ({ st with active := st.active.eraseIdx i,
                 failed :=
                   st.failed ++ [(download_single_video t r1 r2).2.1] },
        false)

/-- `download_single_video` at the level of the whole downloader state, for
the task at position `i` of the active list: run it, then finalize.
Out-of-range `i` leaves the state unchanged. -/
def download_single_video_state (st : DownloaderState) (i : Nat)
    (r1 r2 : EngineResult) : DownloaderState × Bool :=
  finalizeRun st i r1 r2 st.active[i]?

/-! ## config.py: download-state persistence -/

/-- One entry of the `tasks` array written by
`ConfigManager.save_download_state`. -/
structure StateRecord where
  url : String
  is_playlist : Bool
  index : Nat
  total : Nat
  progress : ℚ
  deriving Repr, DecidableEq

/-- The projection of a task persisted by `save_download_state`. -/
def taskToRecord (t : DownloadTask) : StateRecord :=
  { url := t.url, is_playlist := t.is_playlist, index := t.index,
    total := t.total, progress := t.progress.percent }

/-- The persisted state file: an ISO timestamp and the task records. -/
structure SavedState where
  timestamp : String
  tasks : List StateRecord
  deriving Repr, DecidableEq

/-- Python truthiness of `task.url` (non-empty string). -/
def keepTask (t : DownloadTask) : Bool :=
  t.url ≠ "" && t.progress.status ≠ "finished"

/-- `ConfigManager.save_download_state`: write the timestamp and, in
original order, the records of the tasks with a truthy url whose progress
status is not `"finished"`. -/
def save_download_state (now_iso : String) (tasks : List DownloadTask) :
    SavedState :=
  { timestamp := now_iso, tasks := (tasks.filter keepTask).map taskToRecord }

/-- `ConfigManager.load_download_state`. `file_exists` models
`os.path.exists(state_file)`; `parsed_timestamp` models
`datetime.fromisoformat(state.get("timestamp", ""))` as POSIX seconds, with
`none` when the key is absent (the `""` default) or unparsable, in which
case the raised `ValueError` is caught and `[]` returned; `now` is the
current time in POSIX seconds. `timedelta.days` is floor division of the
elapsed seconds by 86400 (`Int.fdiv`). -/
def load_download_state (file_exists : Bool) (parsed_timestamp : Option Int)
    (tasks : List StateRecord) (now : Int) : List StateRecord :=
  if file_exists then
    match parsed_timestamp with
    | none => []
    | some ts => if Int.fdiv (now - ts) 86400 > 7 then [] else tasks
  else []

/-! ## Helper lemmas -/

theorem replaceOne_idem (c : Char) :
    (if invalidChar (if invalidChar c then '_' else c) then '_'
     else if invalidChar c then '_' else c) =
      if invalidChar c then '_' else c := by
  by_cases h : invalidChar c
  · simp [h]
  · simp [h]

theorem replaceInvalid_idem (l : List Char) :
    replaceInvalid (replaceInvalid l) = replaceInvalid l := by
  unfold replaceInvalid
  rw [List.map_map]
  exact List.map_congr_left (fun a _ => replaceOne_idem a)

theorem replaceInvalid_length (l : List Char) :
    (replaceInvalid l).length = l.length := by
  simp [replaceInvalid]

theorem replaceInvalid_append (l₁ l₂ : List Char) :
    replaceInvalid (l₁ ++ l₂) = replaceInvalid l₁ ++ replaceInvalid l₂ := by
  simp [replaceInvalid]

theorem replaceInvalid_take (n : Nat) (l : List Char) :
    replaceInvalid (l.take n) = (replaceInvalid l).take n := by
  simp [replaceInvalid, List.map_take]

/-! ## C10 -/

/-- C10: `sanitize` is idempotent, and an already-sanitized name (no
invalid characters, length at most 200) passes through unchanged. -/
theorem sanitize_idempotent (l : List Char) :
    sanitize (sanitize l) = sanitize l ∧
    ((∀ c ∈ l, invalidChar c = false) → l.length ≤ 200 → sanitize l = l) := by
  constructor
  · unfold sanitize
    by_cases h : (replaceInvalid l).length > 200
    · simp only [h, if_true]
      have hX : replaceInvalid ((replaceInvalid l).take 197 ++ ['.', '.', '.']) =
          (replaceInvalid l).take 197 ++ ['.', '.', '.'] := by
        rw [replaceInvalid_append, replaceInvalid_take, replaceInvalid_idem]
        have hdots : replaceInvalid ['.', '.', '.'] = ['.', '.', '.'] := by decide
        rw [hdots]
      rw [hX]
      have hlen2 : ((replaceInvalid l).take 197 ++ ['.', '.', '.']).length = 200 := by
        simp only [List.length_append, List.length_take, List.length_cons,
          List.length_nil]
        omega
      simp [hlen2]
    · simp only [h, if_false]
      rw [replaceInvalid_idem]
      simp [h]
  · intro hc hlen
    have hrep : replaceInvalid l = l := by
      unfold replaceInvalid
      have h1 : l.map (fun c => if invalidChar c then '_' else c) = l.map id :=
        List.map_congr_left (fun a ha => by simp [hc a ha])
      simpa using h1
    unfold sanitize
    rw [hrep]
    have hq : ¬l.length > 200 := by omega
    rw [if_neg hq]

/-- C10 witness: a short clean name is a fixed point of `sanitize`. -/
theorem sanitize_idempotent_witness :
    sanitize "video title".data = "video title".data :=
  (sanitize_idempotent "video title".data).2 (by decide) (by decide)

/-! ## C2 -/

/-- C2 counterexample: a record whose timestamp is 7 days and 1 hour in the
past — strictly more than 7 days — is NOT discarded: `timedelta.days` is 7,
the guard `days > 7` fails and the full task list is returned. -/
theorem load_download_state_stale_window_cex :
    (608400 : Int) - 0 > 7 * 86400 ∧
    load_download_state true (some 0)
      [{ url := "u", is_playlist := false, index := 1, total := 2,
         progress := 0 }] 608400 =
      [{ url := "u", is_playlist := false, index := 1, total := 2,
         progress := 0 }] := by
  constructor
  · decide
  · rfl

/-- C2 (amended): `load_download_state` returns `[]` when the state file is
missing, when the stored timestamp is absent or unparsable, or when the
elapsed whole number of days `(now - ts).fdiv 86400` exceeds 7 (that is,
at least 8 full days have passed); otherwise it returns the stored task
list in full — the record is never partially salvaged. -/
theorem load_download_state_spec (ex : Bool) (pt : Option Int)
    (tasks : List StateRecord) (now : Int) :
    (load_download_state ex pt tasks now = [] ∨
     load_download_state ex pt tasks now = tasks) ∧
    (ex = false → load_download_state ex pt tasks now = []) ∧
    (pt = none → load_download_state ex pt tasks now = []) ∧
    (∀ v, pt = some v → Int.fdiv (now - v) 86400 > 7 →
      load_download_state ex pt tasks now = []) ∧
    (∀ v, pt = some v → Int.fdiv (now - v) 86400 ≤ 7 → ex = true →
      load_download_state ex pt tasks now = tasks) := by
  unfold load_download_state
  refine ⟨?_, ?_, ?_, ?_, ?_⟩
  · cases ex with
    | false => simp
    | true =>
      cases pt with
      | none => simp
      | some v =>
        by_cases h : Int.fdiv (now - v) 86400 > 7 <;> simp [h]
  · intro h; subst h; simp
  · intro h; subst h; cases ex <;> simp
  · intro v hv h; subst hv; cases ex <;> simp [h]
  · intro v hv h hex; subst hv; subst hex
    simp [show ¬Int.fdiv (now - v) 86400 > 7 by omega]

/-- C2 witness: a fresh one-hour-old record is returned in full. -/
theorem load_download_state_spec_witness :
    load_download_state true (some 0)
      [{ url := "u", is_playlist := false, index := 1, total := 2,
         progress := 0 }] 3600 =
      [{ url := "u", is_playlist := false, index := 1, total := 2,
         progress := 0 }] :=
  (load_download_state_spec true (some 0) _ 3600).2.2.2.2 0 rfl (by decide) rfl

/-! ## C3 -/

/-- C3: the record written by `save_download_state` contains exactly the
records of those tasks whose url is non-empty and whose progress status is
not `"finished"`, in their original order; every task meeting the filter is
persisted, and every persisted record comes from a non-finished task with a
non-empty url — in particular a finished task is never persisted. -/
theorem save_download_state_spec (now_iso : String) (tasks : List DownloadTask) :
    (save_download_state now_iso tasks).tasks =
      (tasks.filter
        (fun t => t.url ≠ "" && t.progress.status ≠ "finished")).map taskToRecord ∧
    (∀ t ∈ tasks, t.url ≠ "" → t.progress.status ≠ "finished" →
      taskToRecord t ∈ (save_download_state now_iso tasks).tasks) ∧
    (∀ r ∈ (save_download_state now_iso tasks).tasks,
      ∃ t ∈ tasks, t.url ≠ "" ∧ t.progress.status ≠ "finished" ∧
        taskToRecord t = r) := by
  refine ⟨rfl, ?_, ?_⟩
  · intro t ht hu hs
    simp only [save_download_state, List.mem_map]
    exact ⟨t, List.mem_filter.mpr ⟨ht, by simp [keepTask, hu, hs]⟩, rfl⟩
  · intro r hr
    simp only [save_download_state, List.mem_map] at hr
    obtain ⟨t, htf, hrt⟩ := hr
    have h1 := List.mem_filter.mp htf
    have h2 := h1.2
    simp only [keepTask, Bool.and_eq_true, decide_eq_true_eq, ne_eq] at h2
    exact ⟨t, h1.1, h2.1, h2.2, hrt⟩

/-- C3 witness: one finished task is dropped, one downloading task kept. -/
theorem save_download_state_spec_witness :
    taskToRecord
        { url := "u2", progress := { status := "downloading" } } ∈
      (save_download_state "2026-01-01T00:00:00"
        [{ url := "u1", progress := { status := "finished", percent := 100 } },
         { url := "u2", progress := { status := "downloading" } }]).tasks :=
  (save_download_state_spec "2026-01-01T00:00:00" _).2.1
    { url := "u2", progress := { status := "downloading" } }
    (by decide) (by decide) (by decide)

/-! ## C1 -/

/-- C1: `download_single_video` performs exactly one retry with the relaxed
selector `"best"` when and only when the first engine failure's message
contains `"requested format is not available"`; on first-call success, or on
successful retry, it returns `true` with status `"finished"` and percent
`100`; on a non-retryable first failure it returns `false` with status
`"error"` and the first message; when the retry also fails it returns
`false` with status `"error"` and the second message. -/
theorem download_single_video_retry_policy (t : DownloadTask)
    (r1 r2 : EngineResult) :
    ((download_single_video t r1 r2).2.2 = [t.options.format_selector, "best"] ↔
      ∃ e, r1 = .error e ∧
        containsSub formatNotAvailableMsg e.data = true) ∧
    (r1 = .ok () →
      (download_single_video t r1 r2).1 = true ∧
      (download_single_video t r1 r2).2.1.progress.status = "finished" ∧
      (download_single_video t r1 r2).2.1.progress.percent = 100) ∧
    (∀ e, r1 = .error e → containsSub formatNotAvailableMsg e.data = true →
      r2 = .ok () →
      (download_single_video t r1 r2).1 = true ∧
      (download_single_video t r1 r2).2.1.progress.status = "finished" ∧
      (download_single_video t r1 r2).2.1.progress.percent = 100) ∧
    (∀ e e2, r1 = .error e → containsSub formatNotAvailableMsg e.data = true →
      r2 = .error e2 →
      (download_single_video t r1 r2).1 = false ∧
      (download_single_video t r1 r2).2.1.progress.status = "error" ∧
      (download_single_video t r1 r2).2.1.progress.error_message = e2) ∧
    (∀ e, r1 = .error e → containsSub formatNotAvailableMsg e.data = false →
      (download_single_video t r1 r2).1 = false ∧
      (download_single_video t r1 r2).2.1.progress.status = "error" ∧
      (download_single_video t r1 r2).2.1.progress.error_message = e) := by
  refine ⟨?_, ?_, ?_, ?_, ?_⟩
  · constructor
    · intro h
      cases r1 with
      | ok u => simp [download_single_video] at h
      | error e =>
        refine ⟨e, rfl, ?_⟩
        by_cases hc : containsSub formatNotAvailableMsg e.data
        · exact hc
        · exfalso
          simp [download_single_video, hc] at h
    · rintro ⟨e, he, hc⟩
      subst he
      cases r2 with
      | ok u => simp [download_single_video, hc]
      | error e2 => simp [download_single_video, hc]
  · rintro rfl
    simp [download_single_video]
  · rintro e rfl hc rfl
    simp [download_single_video, hc]
  · rintro e e2 rfl hc rfl
    simp [download_single_video, hc]
  · rintro e rfl hc
    simp [download_single_video, hc]

/-- C1 witness: both calls fail; the task ends in error with the second
failure's message and the engine was called with the task's selector and
then with `"best"`. -/
theorem download_single_video_retry_policy_witness :
    (download_single_video { url := "u" }
        (.error "ERROR: requested format is not available")
        (.error "second failure")).1 = false ∧
    (download_single_video { url := "u" }
        (.error "ERROR: requested format is not available")
        (.error "second failure")).2.1.progress.status = "error" ∧
    (download_single_video { url := "u" }
        (.error "ERROR: requested format is not available")
        (.error "second failure")).2.1.progress.error_message =
      "second failure" :=
  (download_single_video_retry_policy { url := "u" } _ _).2.2.2.1
    "ERROR: requested format is not available" "second failure"
    rfl (by decide) rfl

/-! ## C7 -/

theorem mkTasksAux_length (opts : DownloadOptions) (total : Nat) :
    ∀ (us : List String) (start : Nat),
      (mkTasksAux opts total start us).length = us.length := by
  intro us
  induction us with
  | nil => intro start; rfl
  | cons u us ih => intro start; simp [mkTasksAux, ih]

theorem mkTasksAux_get (opts : DownloadOptions) (total : Nat) :
    ∀ (us : List String) (start i : Nat)
      (hi : i < (mkTasksAux opts total start us).length),
      ((mkTasksAux opts total start us).get ⟨i, hi⟩).index = start + i + 1 ∧
      ((mkTasksAux opts total start us).get ⟨i, hi⟩).total = total := by
  intro us
  induction us with
  | nil => intro start i hi; simp [mkTasksAux] at hi
  | cons u us ih =>
    intro start i hi
    cases i with
    | zero => exact ⟨rfl, rfl⟩
    | succ j =>
      have hj : j < (mkTasksAux opts total (start + 1) us).length := by
        simpa [mkTasksAux] using hi
      have := ih (start + 1) j hj
      simp only [mkTasksAux, List.get_cons_succ]
      refine ⟨?_, this.2⟩
      rw [this.1]
      omega

/-- C7: for an enumeration of N child urls, `download_playlist` creates
exactly N tasks whose index runs from 1 to N in enumeration order, with
`total = N` on every task. -/
theorem download_playlist_task_numbering (opts : DownloadOptions)
    (urls : List String) :
    (mkPlaylistTasks opts urls).length = urls.length ∧
    ∀ i (hi : i < (mkPlaylistTasks opts urls).length),
      ((mkPlaylistTasks opts urls).get ⟨i, hi⟩).index = i + 1 ∧
      ((mkPlaylistTasks opts urls).get ⟨i, hi⟩).total = urls.length := by
  refine ⟨mkTasksAux_length opts urls.length urls 0, ?_⟩
  intro i hi
  have h := mkTasksAux_get opts urls.length urls 0 i hi
  simpa using h

/-- C7 witness: two urls yield tasks numbered 1/2 and 2/2. -/
theorem download_playlist_task_numbering_witness :
    ((mkPlaylistTasks {} ["a", "b"]).get ⟨1, by decide⟩).index = 2 ∧
    ((mkPlaylistTasks {} ["a", "b"]).get ⟨1, by decide⟩).total = 2 :=
  (download_playlist_task_numbering {} ["a", "b"]).2 1 (by decide)

/-! ## C8 -/

theorem foldl_count_eq (p : DownloadTask → Bool) :
    ∀ (l : List DownloadTask) (n : Nat),
      l.foldl (fun n t => if p t then n + 1 else n) n = n + l.countP p := by
  intro l
  induction l with
  | nil => intro n; simp
  | cons t ts ih =>
    intro n
    rw [List.foldl_cons, List.countP_cons]
    by_cases hp : p t = true
    · rw [if_pos hp, ih, if_pos hp]
      omega
    · rw [if_neg hp, ih, if_neg hp]
      omega

theorem flatten_toBatches (k : Nat) (hk : k ≠ 0) :
    ∀ (n : Nat) (l : List DownloadTask), l.length ≤ n →
      (toBatches k l).flatten = l := by
  intro n
  induction n with
  | zero =>
    intro l hl
    have : l = [] := List.eq_nil_of_length_eq_zero (by omega)
    subst this
    rw [toBatches]
    simp [hk]
  | succ m ih =>
    intro l hl
    match l with
    | [] =>
      rw [toBatches]
      simp [hk]
    | t :: ts =>
      rw [toBatches]
      simp only [hk, if_false]
      rw [List.flatten_cons]
      have hdrop : ((t :: ts).drop k).length ≤ m := by
        rw [List.length_drop]
        simp only [List.length_cons] at hl ⊢
        omega
      rw [ih _ hdrop, List.take_append_drop]

theorem batch_count_eq (p : DownloadTask → Bool) :
    ∀ (bs : List (List DownloadTask)) (n : Nat),
      bs.foldl (fun n b => n + b.foldl (fun m t => if p t then m + 1 else m) 0) n =
        n + (bs.flatten).countP p := by
  intro bs
  induction bs with
  | nil => intro n; simp
  | cons b bs ih =>
    intro n
    rw [List.foldl_cons, foldl_count_eq, ih, List.flatten_cons,
      List.countP_append]
    omega

theorem download_sequential_iff (eng : Engine) (tasks : List DownloadTask) :
    download_sequential eng tasks = true ↔
      ∃ t ∈ tasks, taskSucceeds eng t = true := by
  unfold download_sequential
  rw [foldl_count_eq, Nat.zero_add]
  simp only [gt_iff_lt, decide_eq_true_eq]
  exact List.countP_pos_iff

theorem download_parallel_iff (eng : Engine) (tasks : List DownloadTask)
    (mw : Nat) (hmw : mw ≠ 0) :
    download_parallel eng tasks mw = true ↔
      ∃ t ∈ tasks, taskSucceeds eng t = true := by
  unfold download_parallel
  rw [batch_count_eq, Nat.zero_add,
    flatten_toBatches (min mw 10) (by omega) tasks.length tasks (le_refl _)]
  simp only [gt_iff_lt, decide_eq_true_eq]
  exact List.countP_pos_iff

/-- C8: a collection run returns `true` iff at least one child task
downloads successfully, in both the sequential and the parallel path; an
enumeration error (a failure during collection setup) or an empty child-url
enumeration makes the whole run return `false`. -/
theorem download_playlist_success_iff (enum : Except String (List String))
    (opts : DownloadOptions) (eng : Engine) :
    (download_playlist enum opts eng = true ↔
      ∃ urls, enum = .ok urls ∧
        ∃ t ∈ mkPlaylistTasks opts urls, taskSucceeds eng t = true) ∧
    (∀ e, enum = .error e → download_playlist enum opts eng = false) ∧
    (enum = .ok [] → download_playlist enum opts eng = false) := by
  refine ⟨?_, ?_, ?_⟩
  · cases enum with
    | error e => simp [download_playlist]
    | ok urls =>
      cases urls with
      | nil => simp [download_playlist, mkPlaylistTasks, mkTasksAux]
      | cons u us =>
        have hiff : download_playlist (.ok (u :: us)) opts eng = true ↔
            ∃ t ∈ mkPlaylistTasks opts (u :: us), taskSucceeds eng t = true := by
          simp only [download_playlist, List.isEmpty_cons, Bool.false_eq_true,
            if_false]
          by_cases hw : opts.max_workers > 1
          · rw [if_pos hw]
            exact download_parallel_iff eng _ _ (by omega)
          · rw [if_neg hw]
            exact download_sequential_iff eng _
        rw [hiff]
        constructor
        · intro h
          exact ⟨u :: us, rfl, h⟩
        · rintro ⟨urls', heq, h⟩
          cases heq
          exact h
  · rintro e rfl
    rfl
  · rintro rfl
    rfl

/-- C8 witness: an empty enumeration yields a failed run. -/
theorem download_playlist_success_iff_witness :
    download_playlist (.ok []) {} (fun _ => (.ok (), .ok ())) = false :=
  (download_playlist_success_iff (.ok []) {} (fun _ => (.ok (), .ok ()))).2.2 rfl

/-! ## C6 -/

theorem orElseIdx_some (i : Nat) (b : Option Nat) :
    orElseIdx (some i) b = some i := rfl

theorem orElseIdx_none (b : Option Nat) : orElseIdx none b = b := rfl

theorem findFirstIdx_cons (p : DownloadTask → Bool) (t : DownloadTask)
    (ts : List DownloadTask) :
    findFirstIdx p (t :: ts) =
      if p t = true then some 0 else (findFirstIdx p ts).map (· + 1) := rfl

theorem findFirstIdx_none_iff (p : DownloadTask → Bool) (l : List DownloadTask) :
    findFirstIdx p l = none ↔ ∀ t ∈ l, p t = false := by
  induction l with
  | nil => simp [findFirstIdx]
  | cons t ts ih =>
    rw [findFirstIdx_cons]
    by_cases hp : p t = true
    · rw [if_pos hp]
      constructor
      · intro h
        cases h
      · intro h
        have h0 := h t (List.mem_cons_self t ts)
        rw [hp] at h0
        exact absurd h0 (by decide)
    · rw [if_neg hp]
      constructor
      · intro h
        intro x hx
        rcases List.mem_cons.mp hx with rfl | hx2
        · exact Bool.eq_false_iff.mpr hp
        · rcases hm : findFirstIdx p ts with _ | m
          · exact (ih.mp hm) x hx2
          · rw [hm] at h
            cases h
      · intro h
        have h2 : findFirstIdx p ts = none :=
          ih.mpr (fun x hx => h x (List.mem_cons.mpr (Or.inr hx)))
        rw [h2]
        rfl

theorem findFirstIdx_some_iff (p : DownloadTask → Bool) (l : List DownloadTask)
    (j : Nat) :
    findFirstIdx p l = some j ↔
      ∃ hj : j < l.length, p (l.get ⟨j, hj⟩) = true ∧
        ∀ k (hk : k < j), p (l.get ⟨k, Nat.lt_trans hk hj⟩) = false := by
  induction l generalizing j with
  | nil => simp [findFirstIdx]
  | cons t ts ih =>
    rw [findFirstIdx_cons]
    by_cases hp : p t = true
    · rw [if_pos hp]
      constructor
      · intro h
        have hj0 : 0 = j := by
          injection h
        subst hj0
        exact ⟨Nat.succ_pos _, hp, fun k hk => absurd hk (Nat.not_lt_zero k)⟩
      · rintro ⟨hj, hpj, hfirst⟩
        cases j with
        | zero => rfl
        | succ m =>
          exfalso
          have h0 : p t = false := hfirst 0 (Nat.succ_pos m)
          rw [hp] at h0
          exact absurd h0 (by decide)
    · rw [if_neg hp]
      constructor
      · intro h
        rcases hm : findFirstIdx p ts with _ | m
        · rw [hm] at h
          cases h
        · rw [hm] at h
          have hmj : m + 1 = j := by
            injection h
          subst hmj
          obtain ⟨hm2, hpm, hfirst⟩ := (ih m).mp hm
          refine ⟨Nat.succ_lt_succ hm2, hpm, ?_⟩
          intro k hk
          cases k with
          | zero => exact Bool.eq_false_iff.mpr hp
          | succ k2 => exact hfirst k2 (Nat.lt_of_succ_lt_succ hk)
      · rintro ⟨hj, hpj, hfirst⟩
        cases j with
        | zero => exact absurd hpj hp
        | succ m =>
          have hm2 : m < ts.length := Nat.lt_of_succ_lt_succ hj
          have hts : findFirstIdx p ts = some m := by
            rw [ih m]
            exact ⟨hm2, hpj, fun k hk => hfirst (k + 1) (Nat.succ_lt_succ hk)⟩
          rw [hts]
          rfl

/-- C6: the routing priority of `progress_hook`. (1) An active task whose
url equals the event's truthy candidate source identifier wins; (2)
otherwise the first active task with a non-empty recorded filename equal to
the event's file basename; (3) otherwise the first active task that has not
yet observed a filename; (4) when no rule matches, the event is dropped and
the active list is returned unchanged with no error. In each tier the FIRST
matching active task (lowest index) is chosen. -/
theorem progress_hook_routing_priority (active : List DownloadTask)
    (ev : HookEvent) :
    (∀ u j (hj : j < active.length), candidateUrl ev = some u →
      (active.get ⟨j, hj⟩).url = u →
      (∀ k (hk : k < j), (active.get ⟨k, Nat.lt_trans hk hj⟩).url ≠ u) →
      matchTaskIdx active ev = some j) ∧
    ((∀ u, candidateUrl ev = some u → ∀ t ∈ active, t.url ≠ u) →
      ∀ j (hj : j < active.length),
      (active.get ⟨j, hj⟩).progress.filename ≠ "" →
      (active.get ⟨j, hj⟩).progress.filename = basename ev.filename →
      (∀ k (hk : k < j),
        nameMatches (basename ev.filename)
          (active.get ⟨k, Nat.lt_trans hk hj⟩) = false) →
      matchTaskIdx active ev = some j) ∧
    ((∀ u, candidateUrl ev = some u → ∀ t ∈ active, t.url ≠ u) →
      (∀ t ∈ active, nameMatches (basename ev.filename) t = false) →
      ∀ j (hj : j < active.length),
      (active.get ⟨j, hj⟩).progress.filename = "" →
      (∀ k (hk : k < j),
        (active.get ⟨k, Nat.lt_trans hk hj⟩).progress.filename ≠ "") →
      matchTaskIdx active ev = some j) ∧
    ((∀ u, candidateUrl ev = some u → ∀ t ∈ active, t.url ≠ u) →
      (∀ t ∈ active, nameMatches (basename ev.filename) t = false) →
      (∀ t ∈ active, t.progress.filename ≠ "") →
      matchTaskIdx active ev = none ∧
      progress_hook active ev = (active, none)) := by
  have hUrlNone : (∀ u, candidateUrl ev = some u → ∀ t ∈ active, t.url ≠ u) →
      urlTierIdx active ev = none := by
    intro hno
    unfold urlTierIdx
    cases hc : candidateUrl ev with
    | none => rfl
    | some u =>
      show findFirstIdx (urlMatches u) active = none
      rw [findFirstIdx_none_iff]
      intro t ht
      exact decide_eq_false (hno u hc t ht)
  refine ⟨?_, ?_, ?_, ?_⟩
  · intro u j hj hcand hurl hfirst
    have h1 : urlTierIdx active ev = some j := by
      unfold urlTierIdx
      rw [hcand]
      show findFirstIdx (urlMatches u) active = some j
      rw [findFirstIdx_some_iff]
      exact ⟨hj, decide_eq_true hurl, fun k hk => decide_eq_false (hfirst k hk)⟩
    unfold matchTaskIdx
    rw [h1, orElseIdx_some]
  · intro hno j hj hne hbn hfirst
    have h2 : findFirstIdx (nameMatches (basename ev.filename)) active = some j := by
      rw [findFirstIdx_some_iff]
      refine ⟨hj, ?_, hfirst⟩
      unfold nameMatches
      rw [Bool.and_eq_true]
      exact ⟨decide_eq_true hne, decide_eq_true hbn⟩
    unfold matchTaskIdx
    rw [hUrlNone hno, orElseIdx_none, h2, orElseIdx_some]
  · intro hno hname j hj hfresh hfirst
    have h2 : findFirstIdx (nameMatches (basename ev.filename)) active = none :=
      (findFirstIdx_none_iff _ _).mpr hname
    have h3 : findFirstIdx freshTask active = some j := by
      rw [findFirstIdx_some_iff]
      exact ⟨hj, decide_eq_true hfresh, fun k hk => decide_eq_false (hfirst k hk)⟩
    unfold matchTaskIdx
    rw [hUrlNone hno, orElseIdx_none, h2, orElseIdx_none, h3]
  · intro hno hname hfresh
    have h3 : findFirstIdx freshTask active = none := by
      rw [findFirstIdx_none_iff]
      intro t ht
      exact decide_eq_false (hfresh t ht)
    have hm : matchTaskIdx active ev = none := by
      unfold matchTaskIdx
      rw [hUrlNone hno, orElseIdx_none,
        (findFirstIdx_none_iff _ _).mpr hname, orElseIdx_none, h3]
    refine ⟨hm, ?_⟩
    unfold progress_hook
    rw [hm]
    rfl

/-- C6 witness: a url-identified event is routed to the matching task even
when another task would match by filename first. -/
theorem progress_hook_routing_priority_witness :
    matchTaskIdx
      [{ url := "a", progress := { filename := "f.mp4" } }, { url := "b" }]
      { filename := "dir/f.mp4", status := "downloading",
        original_url := some "b" } = some 1 :=
  (progress_hook_routing_priority
      [{ url := "a", progress := { filename := "f.mp4" } }, { url := "b" }]
      { filename := "dir/f.mp4", status := "downloading",
        original_url := some "b" }).1
    "b" 1 (by decide) (by decide) (by decide) (by decide)

/-! ## C4 -/

theorem getElem_some_lt {l : List DownloadTask} {i : Nat} {t : DownloadTask}
    (hg : l[i]? = some t) : i < l.length := by
  by_contra hcon
  rw [List.getElem?_eq_none (Nat.le_of_not_lt hcon)] at hg
  cases hg

theorem progress_hook_step (active : List DownloadTask) (ev : HookEvent)
    (i : Nat) (t : DownloadTask) (hm : matchTaskIdx active ev = some i)
    (hg : active[i]? = some t) :
    progress_hook active ev =
      (active.set i { t with progress := (applyEvent t.progress ev).1 },
       (applyEvent t.progress ev).2) := by
  unfold progress_hook
  rw [hm]
  show applyToMatched active ev active[i]? i = _
  rw [hg]
  rfl

theorem downloadingUpdate_some (p : DownloadProgress) (ev : HookEvent)
    (s : String) :
    downloadingUpdate p ev (some s) =
      pctApply p ev (pyFloat (cleanPercentStr s)) := rfl

/-- C4 counterexample: a `downloading` event carrying the unparsable
percentage string `"N/A"` routed to an active task makes the hook raise
`ValueError` (the claim says it never raises). -/
theorem progress_hook_unparsable_raises_cex :
    (progress_hook [{ url := "u" }]
      { filename := "f.mp4", status := "downloading",
        percent_str := some "N/A" }).2 =
      some "ValueError: could not convert string to float" := by decide

/-- C4 (amended): on a `downloading` event routed to a task, an absent
percentage string sets percent to 0 (not "no update") without raising; a
parsable one sets percent to the parsed value without raising; an
unparsable one makes the hook raise `ValueError` — percent is then left
unchanged but filename and status have already been mutated. -/
theorem progress_hook_downloading_update_spec (active : List DownloadTask)
    (ev : HookEvent) (i : Nat) (t : DownloadTask)
    (hm : matchTaskIdx active ev = some i) (hg : active[i]? = some t)
    (hs : ev.status = "downloading") :
    (ev.percent_str = none →
      (progress_hook active ev).2 = none ∧
      ((progress_hook active ev).1[i]?.map fun u => u.progress.percent) =
        some 0) ∧
    (∀ s q, ev.percent_str = some s → pyFloat (cleanPercentStr s) = some q →
      (progress_hook active ev).2 = none ∧
      ((progress_hook active ev).1[i]?.map fun u => u.progress.percent) =
        some q) ∧
    (∀ s, ev.percent_str = some s → pyFloat (cleanPercentStr s) = none →
      (progress_hook active ev).2 =
        some "ValueError: could not convert string to float" ∧
      ((progress_hook active ev).1[i]?.map fun u => u.progress.percent) =
        some t.progress.percent ∧
      ((progress_hook active ev).1[i]?.map fun u => u.progress.status) =
        some "downloading" ∧
      ((progress_hook active ev).1[i]?.map fun u => u.progress.filename) =
        some (basename ev.filename)) := by
  have hlen : i < active.length := getElem_some_lt hg
  rw [progress_hook_step active ev i t hm hg]
  unfold applyEvent
  rw [if_pos hs]
  refine ⟨?_, ?_, ?_⟩
  · intro hnone
    rw [hnone]
    refine ⟨rfl, ?_⟩
    rw [List.getElem?_set_eq_of_lt _ hlen]
    rfl
  · intro s q hsome hq
    rw [hsome, downloadingUpdate_some, hq]
    refine ⟨rfl, ?_⟩
    rw [List.getElem?_set_eq_of_lt _ hlen]
    rfl
  · intro s hsome hnoneq
    rw [hsome, downloadingUpdate_some, hnoneq]
    refine ⟨rfl, ?_, ?_, ?_⟩ <;>
      (rw [List.getElem?_set_eq_of_lt _ hlen]; rfl)

/-- C4 witness: an absent percentage string yields no exception and percent
0 on the routed task. -/
theorem progress_hook_downloading_update_spec_witness :
    (progress_hook [{ url := "w" }]
      { filename := "w.mp4", status := "downloading" }).2 = none ∧
    ((progress_hook [{ url := "w" }]
      { filename := "w.mp4", status := "downloading" }).1[0]?.map
        fun u => u.progress.percent) = some 0 :=
  (progress_hook_downloading_update_spec [{ url := "w" }]
      { filename := "w.mp4", status := "downloading" } 0 { url := "w" }
      rfl rfl rfl).1 rfl

/-! ## C5 -/

/-- C5 counterexample: two `downloading` events reporting 50% and then 10%
routed to the same task leave percent at 10 — percent strictly decreased
while the status stayed `"downloading"`, so it is not monotonically
non-decreasing for every event sequence. -/
theorem progress_hook_percent_not_monotone_cex :
    (((progress_hook [{ url := "u" }]
        { filename := "f.mp4", status := "downloading",
          percent_str := some "50%", original_url := some "u" }).1[0]?.map
      fun u => u.progress.percent) = some 50) ∧
    (((progress_hook [{ url := "u" }]
        { filename := "f.mp4", status := "downloading",
          percent_str := some "50%", original_url := some "u" }).1[0]?.map
      fun u => u.progress.status) = some "downloading") ∧
    (((progress_hook
        (progress_hook [{ url := "u" }]
          { filename := "f.mp4", status := "downloading",
            percent_str := some "50%", original_url := some "u" }).1
        { filename := "f.mp4", status := "downloading",
          percent_str := some "10%", original_url := some "u" }).1[0]?.map
      fun u => u.progress.percent) = some 10) ∧
    (((progress_hook
        (progress_hook [{ url := "u" }]
          { filename := "f.mp4", status := "downloading",
            percent_str := some "50%", original_url := some "u" }).1
        { filename := "f.mp4", status := "downloading",
          percent_str := some "10%", original_url := some "u" }).1[0]?.map
      fun u => u.progress.status) = some "downloading") ∧
    (10 : ℚ) < 50 := by
  refine ⟨?_, ?_, ?_, ?_, ?_⟩ <;> decide

/-- C5 (amended): percent mirrors the event stream rather than being
enforced monotone — each routed `downloading` event overwrites percent with
the event's parsed percentage (0 when the key is absent), so percent is
non-decreasing only when the engine reports non-decreasing percentages;
a routed `finished` event sets percent to exactly 100 at that moment. -/
theorem progress_hook_percent_mirrors_events (active : List DownloadTask)
    (ev : HookEvent) (i : Nat) (t : DownloadTask)
    (hm : matchTaskIdx active ev = some i) (hg : active[i]? = some t) :
    (∀ s q, ev.status = "downloading" → ev.percent_str = some s →
      pyFloat (cleanPercentStr s) = some q →
      ((progress_hook active ev).1[i]?.map fun u => u.progress.percent) =
        some q) ∧
    (ev.status = "downloading" → ev.percent_str = none →
      ((progress_hook active ev).1[i]?.map fun u => u.progress.percent) =
        some 0) ∧
    (ev.status = "finished" →
      ((progress_hook active ev).1[i]?.map fun u => u.progress.percent) =
        some 100 ∧
      ((progress_hook active ev).1[i]?.map fun u => u.progress.status) =
        some "finished") := by
  have hlen : i < active.length := getElem_some_lt hg
  rw [progress_hook_step active ev i t hm hg]
  refine ⟨?_, ?_, ?_⟩
  · intro s q hs hsome hq
    unfold applyEvent
    rw [if_pos hs, hsome, downloadingUpdate_some, hq]
    rw [List.getElem?_set_eq_of_lt _ hlen]
    rfl
  · intro hs hnone
    unfold applyEvent
    rw [if_pos hs, hnone]
    rw [List.getElem?_set_eq_of_lt _ hlen]
    rfl
  · intro hs
    unfold applyEvent
    have hnd : ¬ev.status = "downloading" := by
      rw [hs]
      decide
    rw [if_neg hnd, if_pos hs]
    rw [List.getElem?_set_eq_of_lt _ hlen]
    exact ⟨rfl, rfl⟩

/-- C5 witness: a routed `finished` event pins percent to exactly 100. -/
theorem progress_hook_percent_mirrors_events_witness :
    ((progress_hook [{ url := "v" }]
      { filename := "v.mp4", status := "finished" }).1[0]?.map
        fun u => u.progress.percent) = some 100 ∧
    ((progress_hook [{ url := "v" }]
      { filename := "v.mp4", status := "finished" }).1[0]?.map
        fun u => u.progress.status) = some "finished" :=
  (progress_hook_percent_mirrors_events [{ url := "v" }]
      { filename := "v.mp4", status := "finished" } 0 { url := "v" }
      rfl rfl).2.2 rfl

/-! ## C9 -/

/-- C9 counterexample: a task that reached status `"finished"` through a
routed `finished` event but is still in the active set is transitioned back
to `"downloading"` by a later `downloading` event for the same url — the
terminal state is not stable for active tasks. -/
theorem terminal_status_not_stable_cex :
    (((progress_hook [{ url := "t" }]
        { filename := "t.mp4", status := "finished",
          original_url := some "t" }).1[0]?.map
      fun u => u.progress.status) = some "finished") ∧
    (((progress_hook
        (progress_hook [{ url := "t" }]
          { filename := "t.mp4", status := "finished",
            original_url := some "t" }).1
        { filename := "t.mp4", status := "downloading",
          percent_str := some "5%", original_url := some "t" }).1[0]?.map
      fun u => u.progress.status) = some "downloading") := by
  refine ⟨?_, ?_⟩ <;> decide

theorem download_single_video_terminal (t : DownloadTask)
    (r1 r2 : EngineResult) :
    (download_single_video t r1 r2).2.1.progress.status = "finished" ∨
    (download_single_video t r1 r2).2.1.progress.status = "error" := by
  cases r1 with
  | ok u => left; rfl
  | error e =>
    by_cases hc : containsSub formatNotAvailableMsg e.data = true
    · cases r2 with
      | ok u =>
        left
        simp [download_single_video, hc]
      | error e2 =>
        right
        simp [download_single_video, hc]
    · right
      simp [download_single_video, hc]

/-- C9 (amended): the terminal-state invariant holds only once a task has
been finalized. `progress_hook` never touches the completed or failed
lists; `download_single_video` always ends the attempt in a terminal
status (`"finished"` or `"error"`), removes the task from the active set
and moves it to completed or failed, after which no progress event can
reach it (routing consults only active tasks). While a task is still
active, however, a later event can move its status out of
`"finished"`/`"error"` (see the counterexample). -/
theorem finalization_terminal_spec (st : DownloaderState) (ev : HookEvent)
    (i : Nat) (r1 r2 : EngineResult) :
    ((progress_hook_state st ev).1.completed = st.completed ∧
     (progress_hook_state st ev).1.failed = st.failed) ∧
    (∀ t, st.active[i]? = some t →
      (download_single_video_state st i r1 r2).1.active =
        st.active.eraseIdx i ∧
      ((download_single_video t r1 r2).2.1.progress.status = "finished" ∨
       (download_single_video t r1 r2).2.1.progress.status = "error") ∧
      ((download_single_video t r1 r2).2.1 ∈
          (download_single_video_state st i r1 r2).1.completed ∨
       (download_single_video t r1 r2).2.1 ∈
          (download_single_video_state st i r1 r2).1.failed)) := by
  refine ⟨⟨rfl, rfl⟩, ?_⟩
  intro t hg
  have hstep : download_single_video_state st i r1 r2 =
      finalizeRun st i r1 r2 (some t) := by
    unfold download_single_video_state
    rw [hg]
  rw [hstep]
  by_cases hres : (download_single_video t r1 r2).1 = true
  · have hfin : finalizeRun st i r1 r2 (some t) =
        ({ st with active := st.active.eraseIdx i,
                   completed :=
                     st.completed ++ [(download_single_video t r1 r2).2.1] },
          true) := by
      show (if (download_single_video t r1 r2).1 then _ else _) = _
      rw [if_pos hres]
    rw [hfin]
    refine ⟨rfl, download_single_video_terminal t r1 r2, Or.inl ?_⟩
    exact List.mem_append.mpr (Or.inr (List.mem_singleton.mpr rfl))
  · have hfin : finalizeRun st i r1 r2 (some t) =
        ({ st with active := st.active.eraseIdx i,
                   failed :=
                     st.failed ++ [(download_single_video t r1 r2).2.1] },
          false) := by
      show (if (download_single_video t r1 r2).1 then _ else _) = _
      rw [if_neg hres]
    rw [hfin]
    refine ⟨rfl, download_single_video_terminal t r1 r2, Or.inr ?_⟩
    exact List.mem_append.mpr (Or.inr (List.mem_singleton.mpr rfl))

/-- C9 witness: a successful single download finalizes its task out of the
active set into the completed set with terminal status. -/
theorem finalization_terminal_spec_witness :
    (download_single_video_state
        { active := [{ url := "w" }] } 0 (.ok ()) (.ok ())).1.active =
      ([{ url := "w" }] : List DownloadTask).eraseIdx 0 ∧
    ((download_single_video { url := "w" } (.ok ())
        (.ok ())).2.1.progress.status = "finished" ∨
     (download_single_video { url := "w" } (.ok ())
        (.ok ())).2.1.progress.status = "error") ∧
    ((download_single_video { url := "w" } (.ok ()) (.ok ())).2.1 ∈
        (download_single_video_state
          { active := [{ url := "w" }] } 0 (.ok ()) (.ok ())).1.completed ∨
     (download_single_video { url := "w" } (.ok ()) (.ok ())).2.1 ∈
        (download_single_video_state
          { active := [{ url := "w" }] } 0 (.ok ()) (.ok ())).1.failed) :=
  (finalization_terminal_spec { active := [{ url := "w" }] } {} 0
      (.ok ()) (.ok ())).2 { url := "w" } rfl

end YTD
